import Mathlib

/-!
Verification development for the `mscthesis` geometry pipeline
(voxel synthesis of "swiss-cheese" plugs, surface triangulation and
gating, and airspace surface classification).

Modelling conventions, applied uniformly:

* Python/numpy `float64` values are modelled as exact rationals (`ℚ`);
  every float literal of the source is a rational, and `np.pi` is embedded
  as the exact rational value of the `float64` constant.
* A comparison of a square root against a bound
  (`np.linalg.norm(v) > b`, `distance <= radius`) is embedded by its exact
  real-number characterisation over the squared quantity, so that the
  definitions stay decidable; bridging lemmas (`sqrtGtB_iff`,
  `sqrtLeB_iff`) prove the encodings equivalent to the `Real.sqrt`
  comparison they translate.
* A square root that is *stored* rather than compared (`np.std`, the
  Ramanujan curved-area target) is modelled by an uninterpreted parameter
  `fsqrt : ℚ → ℚ` standing for the floating-point square root.
* `np.random` after `np.random.seed(s)` is a deterministic stream of
  unit-interval draws; the stream family `streamOf : ℤ → ℕ → ℚ` is an
  uninterpreted parameter (the Mersenne Twister itself is not embedded),
  and `np.random.uniform(lo, hi)` maps one draw affinely.
* Python exceptions (`raise ValueError`, `assert`, `KeyError`,
  `ZeroDivisionError`) are modelled with `Except String`.
-/

/-- A 3-vector of rational coordinates (exact model of a `float64` triple). -/
structure Vec3 where
  x : ℚ
  y : ℚ
  z : ℚ
deriving DecidableEq

/-- Exact value of the `float64` constant `np.pi`
(`7074237752028440 * 2 ^ (-51)`). -/
def npPi : ℚ := 884279719003555 / 281474976710656

/-- Decidable encoding of the real comparison `Real.sqrt q > b` for `0 ≤ q`:
the comparison holds iff `b < 0` or `b ^ 2 < q`. This is how every
`np.linalg.norm(v) > b` test of the source is embedded (on the squared
norm `q`). -/
def sqrtGtB (q b : ℚ) : Bool := decide (b < 0) || decide (b ^ 2 < q)

/-- Decidable encoding of the real comparison `Real.sqrt q ≤ b` for `0 ≤ q`:
the comparison holds iff `0 ≤ b` and `q ≤ b ^ 2`. This is how the
rasterisation test `distance <= radius` is embedded. -/
def sqrtLeB (q b : ℚ) : Bool := decide (0 ≤ b) && decide (q ≤ b ^ 2)

/-- The state of numpy's global random generator after `np.random.seed`:
an abstract stream of unit-interval draws together with the number of draws
consumed so far. -/
structure Rng where
  stream : ℕ → ℚ
  idx : ℕ

/-- `np.random.uniform(lo, hi)`: consume one draw `u` from the stream and map
it affinely to `lo + (hi - lo) * u`. -/
def Rng.uniform (r : Rng) (lo hi : ℚ) : ℚ × Rng :=
  (lo + (hi - lo) * r.stream r.idx, ⟨r.stream, r.idx + 1⟩)

/-- A dense 3-D `uint8` array, modelled by its shape and a total indexing
function (values at indices outside the shape are never read). -/
structure VoxelGrid where
  nx : ℕ
  ny : ℕ
  nz : ℕ
  val : ℕ → ℕ → ℕ → ℕ

/-- `np.linspace(lo, hi, n)` at index `i`. -/
def linspace (lo hi : ℚ) (n : ℕ) (i : ℕ) : ℚ :=
  if n ≤ 1 then lo else lo + (hi - lo) * i / ((n : ℚ) - 1)

/-- Modelled from the spec: the canonical two-argument
`initialize_meshgrid(plug_aspect, axial_resolution)` called by
`generate_voxels_from_seed` is missing from the repository's staged files —
the staged `helpers.py` holds a superseded three-argument draft of a
different signature and return shape. Per the spec it computes
`planar_resolution = round(2 * plug_aspect * axial_resolution)` and returns
a zero `uint8` grid of shape
`(planar_resolution, planar_resolution, axial_resolution)` together with
the `ij`-indexed meshgrid of `linspace(-plug_aspect, plug_aspect,
planar_resolution)` for X and Y and `linspace(0, 1, axial_resolution)`
for Z (the meshgrid is returned as the three coordinate axes; with `ij`
indexing `X[i,j,k] = x[i]`, `Y[i,j,k] = y[j]`, `Z[i,j,k] = z[k]`). -/
def initialize_meshgrid (plug_aspect : ℚ) (resolution : ℕ) :
    VoxelGrid × ((ℕ → ℚ) × (ℕ → ℚ) × (ℕ → ℚ)) :=
  let planar : ℕ := (round (2 * plug_aspect * (resolution : ℚ))).toNat
  (⟨planar, planar, resolution, fun _ _ _ => 0⟩,
   (linspace (-plug_aspect) plug_aspect planar,
    linspace (-plug_aspect) plug_aspect planar,
    linspace 0 1 resolution))

/-- The numeric parameters of `generate_voxels_from_seed`. -/
structure SynthParams where
  resolution : ℕ
  plug_aspect : ℚ
  num_cells : ℕ
  min_radius : ℚ
  max_radius : ℚ
  min_separation : ℚ
  max_attempts : ℕ

/-- `max_r = plug_aspect - max_radius - min_separation` (the safety radius). -/
def SynthParams.maxR (p : SynthParams) : ℚ :=
  p.plug_aspect - p.max_radius - p.min_separation

/-- `min_z = max_radius + min_separation`. -/
def SynthParams.minZ (p : SynthParams) : ℚ := p.max_radius + p.min_separation

/-- `max_z = 1 - max_radius - min_separation`. -/
def SynthParams.maxZ (p : SynthParams) : ℚ := 1 - p.max_radius - p.min_separation

/-- Squared Euclidean distance between two centers
(`np.linalg.norm(a - b) ** 2`). -/
def sqDist (a b : Vec3) : ℚ := (a.x - b.x) ^ 2 + (a.y - b.y) ^ 2 + (a.z - b.z) ^ 2

/-- The overlap test of the placement loop:
`np.all(np.linalg.norm(centers[:i] - center, axis=1) > (radii[:i] + radius +
min_separation))`, over the list of spheres placed so far. -/
def no_overlap (placed : List (Vec3 × ℚ)) (c : Vec3) (radius sep : ℚ) : Bool :=
  placed.all fun pr => sqrtGtB (sqDist pr.1 c) (pr.2 + radius + sep)

/-- The inner `while attempts < max_attempts` loop of
`generate_voxels_from_seed`, for one sphere: draw a candidate center
(three uniform draws), reject it (`continue`) when its radial projection
leaves the safety radius, otherwise draw a radius (one more uniform draw)
and accept iff it overlaps no previously placed sphere. `none` means the
attempt budget was exhausted without an accepted candidate (the `while`
loop's `else` arm). -/
def attempt_place (p : SynthParams) (placed : List (Vec3 × ℚ)) :
    ℕ → Rng → Option (Vec3 × ℚ × Rng)
  | 0, _ => none
  | fuel + 1, rng =>
    let (cx, rng) := rng.uniform (-p.maxR) p.maxR
    let (cy, rng) := rng.uniform (-p.maxR) p.maxR
    let (cz, rng) := rng.uniform p.minZ p.maxZ
    let c : Vec3 := ⟨cx, cy, cz⟩
    if sqrtGtB (cx ^ 2 + cy ^ 2) p.maxR then
      attempt_place p placed fuel rng
    else
      let (radius, rng) := rng.uniform p.min_radius p.max_radius
      if no_overlap placed c radius p.min_separation then
        some (c, radius, rng)
      else
        attempt_place p placed fuel rng

/-- Rasterisation of one accepted sphere:
`voxels |= (distance <= radius).astype(np.uint8)` where `distance` is the
pointwise Euclidean distance of the meshgrid to the sphere center. -/
def rasterize (xs ys zs : ℕ → ℚ) (g : VoxelGrid) (c : Vec3) (radius : ℚ) :
    VoxelGrid :=
  { g with
    val := fun i j k =>
      g.val i j k |||
        (if sqrtLeB ((xs i - c.x) ^ 2 + (ys j - c.y) ^ 2 + (zs k - c.z) ^ 2)
            radius then 1 else 0) }

/-- The mutable state of the placement `for` loop. -/
structure PlaceState where
  placed : List (Vec3 × ℚ)
  grid : VoxelGrid
  rng : Rng

/-- The outer `for i in range(num_cells)` loop of
`generate_voxels_from_seed`: for each sphere run the attempt loop; on
failure (`else: break`) stop placing all further spheres and return the
state unchanged; on acceptance record the sphere and rasterise it into the
grid. -/
def place_cells (p : SynthParams) (xs ys zs : ℕ → ℚ) :
    ℕ → PlaceState → PlaceState
  | 0, s => s
  | n + 1, s =>
    match attempt_place p s.placed p.max_attempts s.rng with
    | none => s
    | some (c, radius, rng') =>
      place_cells p xs ys zs n
        ⟨s.placed ++ [(c, radius)], rasterize xs ys zs s.grid c radius, rng'⟩

/-- A value of the (string-keyed) Python metadata dictionaries. -/
inductive MetaVal where
  | str (s : String)
  | int (n : ℤ)
  | rat (q : ℚ)
  | bool (b : Bool)
deriving DecidableEq

/-- Python `dict[key]` lookup; `none` models a `KeyError`. -/
def dictGet (d : List (String × MetaVal)) (k : String) : Option MetaVal :=
  (d.find? fun kv => kv.1 == k).map (·.2)

/-- `np.min` over a nonempty list (`0` never reached: the call is guarded). -/
def npMinL : List ℚ → ℚ
  | [] => 0
  | x :: xs => xs.foldl min x

/-- `np.max` over a nonempty list (`0` never reached: the call is guarded). -/
def npMaxL : List ℚ → ℚ
  | [] => 0
  | x :: xs => xs.foldl max x

/-- `np.mean` over a list of rationals. -/
def npMeanL (l : List ℚ) : ℚ := l.sum / (l.length : ℚ)

/-- Sum of all voxel values of a grid (`np.sum(voxels)`). -/
def gridSum (g : VoxelGrid) : ℕ :=
  ((List.range g.nx).map fun i =>
    ((List.range g.ny).map fun j =>
      ((List.range g.nz).map fun k => g.val i j k).sum).sum).sum

/-- `np.sum(voxels, axis=(0,1))` at axial index `k`. -/
def sliceSum (g : VoxelGrid) (k : ℕ) : ℕ :=
  ((List.range g.nx).map fun i =>
    ((List.range g.ny).map fun j => g.val i j k).sum).sum

/-- `_metadata` of `core/synthesis/uniform.py`: the statistics digest of the
placed (and kept) spheres and of the voxel grid. `fsqrt` is the
floating-point square root used by `np.std` (the standard deviation is the
square root of the mean squared deviation). Every statistic over the radius
list is guarded by `if len(radii) > 0 else 0.0` exactly as in the source,
so the computation is total. -/
def synth_metadata (fsqrt : ℚ → ℚ) (random_seed : ℤ)
    (placed : List (Vec3 × ℚ)) (g : VoxelGrid) : List (String × MetaVal) :=
  let radii : List ℚ := placed.map (·.2)
  let porosities : List ℚ :=
    (List.range g.nz).map fun k =>
      1 - (sliceSum g k : ℚ) / ((g.nx : ℚ) * (g.ny : ℚ))
  let porosityMean : ℚ := npMeanL porosities
  [("random_seed", MetaVal.int random_seed),
   ("num_cells_placed", MetaVal.int (placed.length : ℤ)),
   ("min_radius", MetaVal.rat (if 0 < radii.length then npMinL radii else 0)),
   ("mean_radius", MetaVal.rat (if 0 < radii.length then npMeanL radii else 0)),
   ("max_radius", MetaVal.rat (if 0 < radii.length then npMaxL radii else 0)),
   ("mean_cell_volume",
     MetaVal.rat (if 0 < radii.length then
       npMeanL (radii.map fun r => 4 / 3 * npPi * r ^ 3) else 0)),
   ("mean_porosity",
     MetaVal.rat (1 - (gridSum g : ℚ) / ((g.nx : ℚ) * (g.ny : ℚ) * (g.nz : ℚ)))),
   ("std_porosity",
     MetaVal.rat (fsqrt (npMeanL (porosities.map fun q => (q - porosityMean) ^ 2)))),
   ("status", MetaVal.str "success")]

/-- The `ValueError` message of the infeasible-parameter check. -/
def infeasibleMsg : String :=
  "ValueError: Cell size and separation too large for given plug aspect."

/-- The placement run of `generate_voxels_from_seed`: seed the generator,
build the meshgrid, and run the placement loop from the empty state. -/
def synth_run (streamOf : ℤ → ℕ → ℚ) (random_seed : ℤ) (p : SynthParams) :
    PlaceState :=
  let mg := initialize_meshgrid p.plug_aspect p.resolution
  place_cells p mg.2.1 mg.2.2.1 mg.2.2.2 p.num_cells
    ⟨[], mg.1, ⟨streamOf random_seed, 0⟩⟩

/-- The spheres kept after the run: `centers[radii > 0]`, `radii[radii > 0]`. -/
def synth_kept (streamOf : ℤ → ℕ → ℚ) (random_seed : ℤ) (p : SynthParams) :
    List (Vec3 × ℚ) :=
  (synth_run streamOf random_seed p).placed.filter fun pr => decide (0 < pr.2)

/-- `generate_voxels_from_seed` of `core/synthesis/uniform.py`: check the
safety radius (raising `ValueError` when it is not positive), place up to
`num_cells` spheres, drop the unplaced (zero-radius) slots, and return the
grid with its metadata. `streamOf` abstracts `np.random.seed`'s stream and
`fsqrt` the floating-point square root of `np.std`. -/
def generate_voxels_from_seed (streamOf : ℤ → ℕ → ℚ) (fsqrt : ℚ → ℚ)
    (random_seed : ℤ) (p : SynthParams) :
    Except String (VoxelGrid × List (String × MetaVal)) :=
  if p.maxR ≤ 0 then
    Except.error infeasibleMsg
  else
    let s := synth_run streamOf random_seed p
    Except.ok
      (s.grid, synth_metadata fsqrt random_seed (synth_kept streamOf random_seed p) s.grid)

/-- `int(sample_id)` for a fixed-width decimal digit string, as the list of
its digits, most significant first. -/
def decimalVal (ds : List ℕ) : ℕ := ds.foldl (fun a d => 10 * a + d) 0

/-- `get_sample_seed` of `core/synthesis/helpers.py`:
`base_seed + 17 * 31 * 53 * int(sample_id)`. -/
def get_sample_seed (base_seed : ℤ) (sample_id : List ℕ) : ℤ :=
  base_seed + 17 * 31 * 53 * (decimalVal sample_id : ℤ)

/-- `generate_voxels_from_sample_id` of `core/synthesis/uniform.py`: derive
the sample seed and run `generate_voxels_from_seed` with it. -/
def generate_voxels_from_sample_id (streamOf : ℤ → ℕ → ℚ) (fsqrt : ℚ → ℚ)
    (sample_id : List ℕ) (base_seed : ℤ) (p : SynthParams) :
    Except String (VoxelGrid × List (String × MetaVal)) :=
  generate_voxels_from_seed streamOf fsqrt (get_sample_seed base_seed sample_id) p

/-- `np.min` over a nonempty list of `uint8` values. -/
def npMinN : List ℕ → ℕ
  | [] => 0
  | x :: xs => xs.foldl min x

/-- `np.max` over a nonempty list of `uint8` values. -/
def npMaxN : List ℕ → ℕ
  | [] => 0
  | x :: xs => xs.foldl max x

/-- All voxel values of a grid, row-major (`voxels.ravel()`). -/
def gridVals (g : VoxelGrid) : List ℕ :=
  (((List.range g.nx).map fun i =>
    ((List.range g.ny).map fun j =>
      (List.range g.nz).map fun k => g.val i j k).flatten).flatten)

/-- `volume.min()` over a grid. -/
def gridMin (g : VoxelGrid) : ℕ := npMinN (gridVals g)

/-- `volume.max()` over a grid. -/
def gridMax (g : VoxelGrid) : ℕ := npMaxN (gridVals g)

/-- The `ValueError` message of `skimage.measure.marching_cubes` for a level
outside the data range. -/
def levelErrMsg : String :=
  "ValueError: Surface level must be within volume data range."

/-- The level-range guard of `skimage.measure.marching_cubes` (external
dependency, documented behaviour): with `level=0.5`, the call raises
`ValueError("Surface level must be within volume data range.")` whenever
`level < volume.min()` or `level > volume.max()`; this guard runs before
any surface is extracted. -/
def marching_cubes_level_ok (g : VoxelGrid) : Bool :=
  !(decide ((1 : ℚ) / 2 < (gridMin g : ℚ)) || decide ((gridMax g : ℚ) < 1 / 2))

/-- Python `float` division: raises `ZeroDivisionError` on a zero
denominator. -/
def pydiv (x y : ℚ) : Except String ℚ :=
  if y = 0 then Except.error "ZeroDivisionError: float division by zero"
  else Except.ok (x / y)

/-- The status rule of `triangulate_voxels`:
`"success"` iff the final mesh is edge-manifold, vertex-manifold and
watertight, else `"failure"`. -/
def tri_status (em vm wt : Bool) : String :=
  if em && vm && wt then "success" else "failure"

/-- The dictionary literal built by `_metadata` of
`core/meshing/triangulation.py`, once the two shrinkage ratios have been
computed. -/
def tri_metadata_dict (nv nf : ℕ) (pre_area post_area pre_volume post_volume
    area_shrinkage volume_shrinkage shrinkage_tolerance : ℚ) (status : String) :
    List (String × MetaVal) :=
  [("num_vertices", MetaVal.int (nv : ℤ)),
   ("num_faces", MetaVal.int (nf : ℤ)),
   ("pre_area", MetaVal.rat pre_area),
   ("post_area", MetaVal.rat post_area),
   ("area_shrinkage", MetaVal.rat area_shrinkage),
   ("pre_volume", MetaVal.rat pre_volume),
   ("post_volume", MetaVal.rat post_volume),
   ("volume_shrinkage", MetaVal.rat volume_shrinkage),
   ("shrinkage_acceptable",
     MetaVal.bool (decide (area_shrinkage ≤ shrinkage_tolerance) &&
       decide (volume_shrinkage ≤ shrinkage_tolerance))),
   ("status", MetaVal.str status)]

/-- `_metadata` of `core/meshing/triangulation.py`:
`area_shrinkage = abs(pre_area - post_area) / pre_area` and
`volume_shrinkage = abs(pre_volume - post_volume) / pre_volume` (Python
float division, so a zero baseline raises `ZeroDivisionError`), then the
metadata dictionary with `shrinkage_acceptable` true iff both ratios are
at most `shrinkage_tolerance`. -/
def tri_metadata (nv nf : ℕ) (pre_area post_area pre_volume post_volume
    shrinkage_tolerance : ℚ) (status : String) :
    Except String (List (String × MetaVal)) := do
  let area_shrinkage ← pydiv |pre_area - post_area| pre_area
  let volume_shrinkage ← pydiv |pre_volume - post_volume| pre_volume
  Except.ok (tri_metadata_dict nv nf pre_area post_area pre_volume post_volume
    area_shrinkage volume_shrinkage shrinkage_tolerance status)

/-- `triangulate_voxels` of `core/meshing/triangulation.py`. The external
mesh operations (open3d's cleaning, Taubin smoothing, quadric decimation
and measurements) are abstracted by their observable outputs, passed as
arguments: `em`/`vm`/`wt` are the final mesh's `is_edge_manifold` /
`is_vertex_manifold` / `is_watertight` results, `nv`/`nf` its vertex and
triangle counts, and `pre_area`/`pre_volume`/`post_area`/`post_volume` the
measured baseline and post-processing areas and volumes. The repository's
own logic — the marching-cubes call (whose level guard can raise), the
status rule and `_metadata` — is embedded directly; the returned value is
the metadata dictionary (the mesh itself stays abstract). -/
def triangulate_voxels (g : VoxelGrid) (em vm wt : Bool) (nv nf : ℕ)
    (pre_area pre_volume post_area post_volume shrinkage_tolerance : ℚ) :
    Except String (List (String × MetaVal)) :=
  if marching_cubes_level_ok g then
    tri_metadata nv nf pre_area post_area pre_volume post_volume
      shrinkage_tolerance (tri_status em vm wt)
  else
    Except.error levelErrMsg

/-- The observable side effects of the triangulation CLI command. -/
inductive Effect where
  | saveStl
  | exportBrep
deriving DecidableEq

/-- Python truthiness of a metadata value. -/
def pytruthy : MetaVal → Bool
  | MetaVal.str s => !(s == "")
  | MetaVal.int n => !(n == 0)
  | MetaVal.rat q => !(q == 0)
  | MetaVal.bool b => b

/-- The post-triangulation control flow of `_execute_single_sample_id` in
`cli/commands/triangulate.py`: the surface-mesh artifact is saved
(`save_surface_mesh`), then the gate reads `metadata["success"]` — a plain
`dict` subscript, so a missing key raises `KeyError` — and only a truthy
value triggers the FreeCAD STL-to-BREP export. -/
def execute_single_sample_gate (md : List (String × MetaVal)) :
    List Effect × Except String Unit :=
  match dictGet md "success" with
  | none => ([Effect.saveStl], Except.error "KeyError: 'success'")
  | some v =>
    if pytruthy v then ([Effect.saveStl, Effect.exportBrep], Except.ok ())
    else ([Effect.saveStl], Except.ok ())

/-- A surface entity of the geometry kernel's scene as observed by
`assign_physical_groups`: its tag, the Z-coordinate of its center of mass
(`gmsh.model.occ.getCenterOfMass(dim, tag)[2]`) and its area
(`kernel.getMass(2, tag)`), both kernel-reported floats. -/
structure KSurface where
  tag : ℕ
  comZ : ℚ
  area : ℚ
deriving DecidableEq

/-- `np.isclose(a, b)` with the default tolerances
`rtol=1e-5, atol=1e-8`: `abs(a - b) <= atol + rtol * abs(b)`. -/
def np_isclose (a b : ℚ) : Bool :=
  decide (|a - b| ≤ 1 / 100000000 + 1 / 100000 * |b|)

/-- The curved-area target of `assign_physical_groups`: with
`a = size[0]/2`, `b = size[1]/2` the bounding-box half-axes, the Ramanujan
approximation `pi * (3*(a+b) - sqrt((3*a+b)*(a+3*b)))` of the ellipse
circumference. `fsqrt` is the floating-point square root. -/
def curved_area_target (fsqrt : ℚ → ℚ) (size : ℚ × ℚ × ℚ) : ℚ :=
  let a := size.1 / 2
  let b := size.2.1 / 2
  npPi * (3 * (a + b) - fsqrt ((3 * a + b) * (a + 3 * b)))

/-- `_iscurved` of `assign_physical_groups`:
`abs(area / curved_area_target - 1) <= tolerance`. -/
def iscurvedB (target tolerance area : ℚ) : Bool :=
  decide (|area / target - 1| ≤ tolerance)

/-- Whether the classification loop tags a surface `top`:
`np.isclose(com[2], 1.0)`. -/
def isTopB (s : KSurface) : Bool := np_isclose s.comZ 1

/-- Whether the classification loop tags a surface `bottom`: not `top` and
`np.isclose(com[2], 0.0)`. -/
def isBottomB (s : KSurface) : Bool := !isTopB s && np_isclose s.comZ 0

/-- Whether the classification loop tags a surface `curved`: neither cap,
and the curved-area criterion holds. -/
def isCurvedSurfB (target tolerance : ℚ) (s : KSurface) : Bool :=
  !isTopB s && !np_isclose s.comZ 0 && iscurvedB target tolerance s.area

/-- Whether the classification loop tags a surface `mesophyll`: none of the
other three branches fired. -/
def isMesoB (target tolerance : ℚ) (s : KSurface) : Bool :=
  !isTopB s && !np_isclose s.comZ 0 && !iscurvedB target tolerance s.area

/-- The running state of the classification loop of
`assign_physical_groups`. -/
structure ClassifyState where
  curved_found : List ℚ
  curved_area_tag : Option ℕ
  top_area_tag : Option ℕ
  bottom_area_tag : Option ℕ
  mesophyll_surface_tags : List ℕ
deriving DecidableEq

/-- One iteration of the `for dim, tag in surfaces` loop of
`assign_physical_groups`: an `if/elif/elif/else` chain on the center of
mass and the curved-area criterion. -/
def classify_step (target tolerance : ℚ) (st : ClassifyState) (s : KSurface) :
    ClassifyState :=
  if np_isclose s.comZ 1 then { st with top_area_tag := some s.tag }
  else if np_isclose s.comZ 0 then { st with bottom_area_tag := some s.tag }
  else if iscurvedB target tolerance s.area then
    { st with curved_found := st.curved_found ++ [s.area],
              curved_area_tag := some s.tag }
  else
    { st with mesophyll_surface_tags := st.mesophyll_surface_tags ++ [s.tag] }

/-- The physical-group tags returned by `assign_physical_groups`. -/
structure PhysicalGroupTags where
  mesophyll_surface_tags : List ℕ
  curved_area_tag : Option ℕ
  top_area_tag : Option ℕ
  bottom_area_tag : Option ℕ
deriving DecidableEq

/-- The message of the first `assert` of `assign_physical_groups`. -/
def curvedAssertMsg : String :=
  "AssertionError: Error identifying curved face of cylinder."

/-- The message of the second `assert` of `assign_physical_groups`. -/
def capAssertMsg : String :=
  "AssertionError: Error identifying top or bottom surface of cylinder"

/-- `assign_physical_groups` of `core/meshing/gmeshing.py`: compute the
curved-area target from the airspace bounding box, classify every surface
of the scene by the `if/elif` chain, then `assert` that exactly one
surface triggered the curved-area criterion and that both cap surfaces
were found; on success return the tag dictionary. `bbox_size` is the
bounding-box size of the airspace entity and `surfaces` the scene's
surface entities in iteration order. -/
def assign_physical_groups (fsqrt : ℚ → ℚ) (bbox_size : ℚ × ℚ × ℚ)
    (tolerance : ℚ) (surfaces : List KSurface) :
    Except String PhysicalGroupTags :=
  let target := curved_area_target fsqrt bbox_size
  let st := surfaces.foldl (classify_step target tolerance) ⟨[], none, none, none, []⟩
  if st.curved_found.length ≠ 1 then Except.error curvedAssertMsg
  else if st.top_area_tag = none ∨ st.bottom_area_tag = none then
    Except.error capAssertMsg
  else
    Except.ok ⟨st.mesophyll_surface_tags, st.curved_area_tag,
      st.top_area_tag, st.bottom_area_tag⟩

/-- The real-number separation property the spec states for two accepted
spheres: `‖c1 − c2‖ > r1 + r2 + min_separation`. -/
def pairSeparated (sep : ℚ) (a b : Vec3 × ℚ) : Prop :=
  ((a.2 : ℝ) + (b.2 : ℝ) + (sep : ℝ)) < Real.sqrt ((sqDist a.1 b.1 : ℚ) : ℝ)

/-- The real-number safety-radius property the spec states for an accepted
center: its radial (XY) projection has norm at most the safety radius. -/
def inSafety (mr : ℚ) (a : Vec3 × ℚ) : Prop :=
  Real.sqrt (((a.1.x ^ 2 + a.1.y ^ 2 : ℚ) : ℝ)) ≤ (mr : ℝ)

/-- The no-overlap invariant of the placement loop: all pairs of accepted
spheres are separated, and every accepted center lies within the safety
radius. -/
def PlacementInvariant (p : SynthParams) (placed : List (Vec3 × ℚ)) : Prop :=
  List.Pairwise (pairSeparated p.min_separation) placed ∧
  ∀ a ∈ placed, inSafety p.maxR a

/-- A grid whose values all lie in `{0, 1}` (the `uint8` occupancy
invariant). -/
def GridBinary (g : VoxelGrid) : Prop :=
  ∀ i j k, g.val i j k = 0 ∨ g.val i j k = 1

/-- The last element of a list as an `Option`, seeded with a default:
`lastSome init l` is the last element of `l`, or `init` when `l` is empty
(the "last assignment wins" behaviour of the classification loop's tag
variables). -/
def lastSome (init : Option ℕ) (l : List ℕ) : Option ℕ :=
  l.foldl (fun _ t => some t) init

/-! ### Theorems -/

/-- `sqrtGtB` decides exactly the real comparison it encodes. -/
theorem sqrtGtB_iff (q b : ℚ) :
    sqrtGtB q b = true ↔ (b : ℝ) < Real.sqrt (q : ℝ) := by
  unfold sqrtGtB
  rcases lt_or_le b 0 with hb | hb
  · simp only [hb, decide_True, Bool.true_or, true_iff]
    exact lt_of_lt_of_le (by exact_mod_cast hb) (Real.sqrt_nonneg _)
  · have hb' : (0 : ℝ) ≤ (b : ℝ) := by exact_mod_cast hb
    constructor
    · intro h
      rcases Bool.or_eq_true_iff.mp h with h' | h'
      · exact absurd (of_decide_eq_true h') (not_lt.mpr hb)
      · have : (b : ℚ) ^ 2 < q := of_decide_eq_true h'
        exact (Real.lt_sqrt hb').mpr (by exact_mod_cast this)
    · intro h
      have : (b : ℝ) ^ 2 < (q : ℝ) := (Real.lt_sqrt hb').mp h
      have : b ^ 2 < q := by exact_mod_cast this
      exact Bool.or_eq_true_iff.mpr (Or.inr (decide_eq_true this))

/-- `sqrtLeB` decides exactly the real comparison it encodes. -/
theorem sqrtLeB_iff (q b : ℚ) (hq : (0 : ℝ) ≤ (q : ℝ)) :
    sqrtLeB q b = true ↔ Real.sqrt (q : ℝ) ≤ (b : ℝ) := by
  unfold sqrtLeB
  constructor
  · intro h
    rcases Bool.and_eq_true_iff.mp h with ⟨h1, h2⟩
    have hb : (0 : ℚ) ≤ b := of_decide_eq_true h1
    have hqb : q ≤ b ^ 2 := of_decide_eq_true h2
    have : Real.sqrt (q : ℝ) ≤ Real.sqrt ((b : ℝ) ^ 2) := by
      apply Real.sqrt_le_sqrt
      exact_mod_cast hqb
    calc Real.sqrt (q : ℝ) ≤ Real.sqrt ((b : ℝ) ^ 2) := this
      _ = (b : ℝ) := by
          rw [Real.sqrt_sq (by exact_mod_cast hb)]
  · intro h
    have hb : (0 : ℝ) ≤ (b : ℝ) := le_trans (Real.sqrt_nonneg _) h
    have hqb : (q : ℝ) ≤ (b : ℝ) ^ 2 := by
      calc (q : ℝ) = Real.sqrt (q : ℝ) ^ 2 := (Real.sq_sqrt hq).symm
        _ ≤ (b : ℝ) ^ 2 := by
            apply pow_le_pow_left₀ (Real.sqrt_nonneg _) h
    exact Bool.and_eq_true_iff.mpr
      ⟨decide_eq_true (by exact_mod_cast hb), decide_eq_true (by exact_mod_cast hqb)⟩

/-- C3: if, during synthesis, the attempt budget for one sphere is exhausted
without an accepted candidate (`attempt_place` returns `none`, the `while`
loop's `else` arm), the placement loop stops at once: however many spheres
remain to be placed, the state — the list of spheres accepted so far and
the grid into which each of them was rasterised at acceptance — is returned
unchanged, so no sphere with a higher index is placed and every earlier
sphere is kept. -/
theorem C3_first_failure_stops_placement (p : SynthParams) (xs ys zs : ℕ → ℚ)
    (n : ℕ) (s : PlaceState)
    (h : attempt_place p s.placed p.max_attempts s.rng = none) :
    place_cells p xs ys zs (n + 1) s = s := by
  simp [place_cells, h]

/-- Witness for C3 at a concrete state: with `max_attempts = 0` the attempt
loop fails immediately and the placement loop returns its input state. -/
theorem C3_first_failure_stops_placement_witness :
    place_cells ⟨4, 1, 3, 1/10, 1/10, 1/100, 0⟩
      (fun _ => 0) (fun _ => 0) (fun _ => 0) 1
      ⟨[], ⟨2, 2, 4, fun _ _ _ => 0⟩, ⟨fun _ => 0, 0⟩⟩ =
      ⟨[], ⟨2, 2, 4, fun _ _ _ => 0⟩, ⟨fun _ => 0, 0⟩⟩ :=
  C3_first_failure_stops_placement ⟨4, 1, 3, 1/10, 1/10, 1/100, 0⟩
    (fun _ => 0) (fun _ => 0) (fun _ => 0) 0
    ⟨[], ⟨2, 2, 4, fun _ _ _ => 0⟩, ⟨fun _ => 0, 0⟩⟩ rfl

/-- C8: when `plug_aspect - max_radius - min_separation ≤ 0`,
`generate_voxels_from_seed` raises `ValueError` at the precondition check;
the result does not depend on the random stream (no candidate is drawn) and
no voxel is produced, and the error is returned at once (nothing retries
it). -/
theorem C8_infeasible_fails_fast (streamOf : ℤ → ℕ → ℚ) (fsqrt : ℚ → ℚ)
    (random_seed : ℤ) (p : SynthParams) (h : p.maxR ≤ 0) :
    generate_voxels_from_seed streamOf fsqrt random_seed p =
      Except.error infeasibleMsg ∧
    ∀ (streamOf' : ℤ → ℕ → ℚ) (fsqrt' : ℚ → ℚ),
      generate_voxels_from_seed streamOf fsqrt random_seed p =
        generate_voxels_from_seed streamOf' fsqrt' random_seed p := by
  constructor
  · simp [generate_voxels_from_seed, h]
  · intro s' f'
    simp [generate_voxels_from_seed, h]

/-- Witness for C8 at concrete infeasible parameters
(`plug_aspect = 1/10`, `max_radius = 3/20`, `min_separation = 1/100`). -/
theorem C8_infeasible_fails_fast_witness :
    generate_voxels_from_seed (fun _ _ => 0) (fun q => q) 7
      ⟨64, 1/10, 10, 1/20, 3/20, 1/100, 5⟩ = Except.error infeasibleMsg :=
  (C8_infeasible_fails_fast (fun _ _ => 0) (fun q => q) 7
    ⟨64, 1/10, 10, 1/20, 3/20, 1/100, 5⟩
    (by norm_num [SynthParams.maxR])).1

/-- C6: the BREP-conversion gate of `_execute_single_sample_id` reads
`metadata["success"]`, but the metadata dictionary built by `_metadata` of
`triangulation.py` has a `"status"` key and no `"success"` key; so for every
metadata the stage saves the STL artifact, then raises `KeyError` — the
FreeCAD conversion is never invoked, on failure *or* success status. -/
theorem C6_brep_gate_reads_missing_key (nv nf : ℕ)
    (pre_area post_area pre_volume post_volume area_shrinkage volume_shrinkage
      shrinkage_tolerance : ℚ) (status : String) :
    execute_single_sample_gate
      (tri_metadata_dict nv nf pre_area post_area pre_volume post_volume
        area_shrinkage volume_shrinkage shrinkage_tolerance status) =
      ([Effect.saveStl], Except.error "KeyError: 'success'") ∧
    dictGet
      (tri_metadata_dict nv nf pre_area post_area pre_volume post_volume
        area_shrinkage volume_shrinkage shrinkage_tolerance status) "status" =
      some (MetaVal.str status) :=
  ⟨rfl, rfl⟩

/-- The big-endian characterisation of decimal parsing:
folding from accumulator `a` equals `a * 10 ^ length + decimalVal`. -/
theorem decimalVal_foldl (ds : List ℕ) : ∀ a : ℕ,
    ds.foldl (fun a d => 10 * a + d) a = a * 10 ^ ds.length + decimalVal ds := by
  induction ds with
  | nil => intro a; simp [decimalVal]
  | cons d ds ih =>
    intro a
    have hd : decimalVal (d :: ds) = d * 10 ^ ds.length + decimalVal ds := by
      show (d :: ds).foldl (fun a d => 10 * a + d) 0 = _
      rw [List.foldl_cons, ih]
      ring_nf
    rw [List.foldl_cons, ih, hd, List.length_cons, pow_succ]
    ring

/-- A string of decimal digits denotes a value below `10 ^ length`. -/
theorem decimalVal_lt (ds : List ℕ) (h : ∀ d ∈ ds, d < 10) :
    decimalVal ds < 10 ^ ds.length := by
  induction ds with
  | nil => simp [decimalVal]
  | cons d ds ih =>
    have hd : d < 10 := h d (by simp)
    have hds : ∀ x ∈ ds, x < 10 := fun x hx => h x (by simp [hx])
    have hv : decimalVal (d :: ds) = d * 10 ^ ds.length + decimalVal ds := by
      show (d :: ds).foldl (fun a d => 10 * a + d) 0 = _
      rw [List.foldl_cons, decimalVal_foldl]
      ring_nf
    rw [hv, List.length_cons, pow_succ]
    have h1 : decimalVal ds < 10 ^ ds.length := ih hds
    have h2 : d * 10 ^ ds.length + decimalVal ds < (d + 1) * 10 ^ ds.length := by
      rw [add_mul, one_mul]
      exact Nat.add_lt_add_left h1 _
    have h3 : (d + 1) * 10 ^ ds.length ≤ 10 * 10 ^ ds.length :=
      Nat.mul_le_mul_right _ hd
    calc d * 10 ^ ds.length + decimalVal ds < (d + 1) * 10 ^ ds.length := h2
      _ ≤ 10 * 10 ^ ds.length := h3
      _ = 10 ^ ds.length * 10 := by ring

/-- Decimal parsing is injective on digit strings of equal width. -/
theorem decimalVal_inj : ∀ (d1 d2 : List ℕ), (∀ d ∈ d1, d < 10) →
    (∀ d ∈ d2, d < 10) → d1.length = d2.length →
    decimalVal d1 = decimalVal d2 → d1 = d2 := by
  intro d1
  induction d1 with
  | nil =>
    intro d2 _ _ hlen _
    exact (List.length_eq_zero.mp hlen.symm).symm
  | cons a as ih =>
    intro d2 h1 h2 hlen hv
    cases d2 with
    | nil => simp at hlen
    | cons b bs =>
      have hlen' : as.length = bs.length := by simpa using hlen
      have ha : a < 10 := h1 a (by simp)
      have hb : b < 10 := h2 b (by simp)
      have has : ∀ x ∈ as, x < 10 := fun x hx => h1 x (by simp [hx])
      have hbs : ∀ x ∈ bs, x < 10 := fun x hx => h2 x (by simp [hx])
      have hva : decimalVal (a :: as) = a * 10 ^ as.length + decimalVal as := by
        show (a :: as).foldl (fun a d => 10 * a + d) 0 = _
        rw [List.foldl_cons, decimalVal_foldl]
        ring_nf
      have hvb : decimalVal (b :: bs) = b * 10 ^ bs.length + decimalVal bs := by
        show (b :: bs).foldl (fun a d => 10 * a + d) 0 = _
        rw [List.foldl_cons, decimalVal_foldl]
        ring_nf
      rw [hva, hvb, ← hlen'] at hv
      have hxa : decimalVal as < 10 ^ as.length := decimalVal_lt as has
      have hxb : decimalVal bs < 10 ^ as.length := hlen' ▸ decimalVal_lt bs hbs
      have hab : a = b := by
        rcases Nat.lt_trichotomy a b with h | h | h
        · exfalso
          have : a * 10 ^ as.length + decimalVal as < b * 10 ^ as.length := by
            calc a * 10 ^ as.length + decimalVal as
                < a * 10 ^ as.length + 10 ^ as.length := Nat.add_lt_add_left hxa _
              _ = (a + 1) * 10 ^ as.length := by ring
              _ ≤ b * 10 ^ as.length := Nat.mul_le_mul_right _ h
          omega
        · exact h
        · exfalso
          have : b * 10 ^ as.length + decimalVal bs < a * 10 ^ as.length := by
            calc b * 10 ^ as.length + decimalVal bs
                < b * 10 ^ as.length + 10 ^ as.length := Nat.add_lt_add_left hxb _
              _ = (b + 1) * 10 ^ as.length := by ring
              _ ≤ a * 10 ^ as.length := Nat.mul_le_mul_right _ h
          omega
      subst hab
      have hvs : decimalVal as = decimalVal bs := by omega
      rw [ih bs has hbs hlen' hvs]

/-- C2: synthesis is deterministic and seed mixing never collides. The
derived seed is exactly `base_seed + 17 * 31 * 53 * int(sample_id)`; two
invocations of `generate_voxels_from_sample_id` with identical arguments
(including the seeded random stream family) return identical results; and
for a fixed base seed, two distinct fixed-width decimal sample identifiers
(equal-length digit strings) always map to distinct seeds. -/
theorem C2_deterministic_and_injective_seed :
    (∀ (base_seed : ℤ) (sample_id : List ℕ),
      get_sample_seed base_seed sample_id =
        base_seed + 17 * 31 * 53 * (decimalVal sample_id : ℤ)) ∧
    (∀ (streamOf : ℤ → ℕ → ℚ) (fsqrt : ℚ → ℚ) (sample_id : List ℕ)
        (base_seed : ℤ) (p : SynthParams),
      generate_voxels_from_sample_id streamOf fsqrt sample_id base_seed p =
        generate_voxels_from_sample_id streamOf fsqrt sample_id base_seed p) ∧
    (∀ (base_seed : ℤ) (d1 d2 : List ℕ),
      (∀ d ∈ d1, d < 10) → (∀ d ∈ d2, d < 10) → d1.length = d2.length →
      d1 ≠ d2 →
      get_sample_seed base_seed d1 ≠ get_sample_seed base_seed d2) := by
  refine ⟨fun _ _ => rfl, fun _ _ _ _ _ => rfl, ?_⟩
  intro base_seed d1 d2 h1 h2 hlen hne hseed
  apply hne
  unfold get_sample_seed at hseed
  have hmul : (17 * 31 * 53 : ℤ) * (decimalVal d1 : ℤ) =
      (17 * 31 * 53 : ℤ) * (decimalVal d2 : ℤ) := by omega
  have hval : (decimalVal d1 : ℤ) = (decimalVal d2 : ℤ) :=
    mul_left_cancel₀ (by norm_num) hmul
  exact decimalVal_inj d1 d2 h1 h2 hlen (by exact_mod_cast hval)

/-- Witness for C2 at concrete data: base seed `123456` and the distinct
width-3 identifiers `"001"` and `"002"` yield distinct seeds. -/
theorem C2_deterministic_and_injective_seed_witness :
    get_sample_seed 123456 [0, 0, 1] ≠ get_sample_seed 123456 [0, 0, 2] :=
  C2_deterministic_and_injective_seed.2.2 123456 [0, 0, 1] [0, 0, 2]
    (by decide) (by decide) rfl (by decide)

/-- Rasterisation never changes the grid's shape. -/
theorem rasterize_shape (xs ys zs : ℕ → ℚ) (g : VoxelGrid) (c : Vec3)
    (radius : ℚ) :
    (rasterize xs ys zs g c radius).nx = g.nx ∧
    (rasterize xs ys zs g c radius).ny = g.ny ∧
    (rasterize xs ys zs g c radius).nz = g.nz :=
  ⟨rfl, rfl, rfl⟩

/-- The placement loop never changes the grid's shape. -/
theorem place_cells_shape (p : SynthParams) (xs ys zs : ℕ → ℚ) :
    ∀ (k : ℕ) (s : PlaceState),
      (place_cells p xs ys zs k s).grid.nx = s.grid.nx ∧
      (place_cells p xs ys zs k s).grid.ny = s.grid.ny ∧
      (place_cells p xs ys zs k s).grid.nz = s.grid.nz := by
  intro k
  induction k with
  | zero => intro s; exact ⟨rfl, rfl, rfl⟩
  | succ n ih =>
    intro s
    cases h : attempt_place p s.placed p.max_attempts s.rng with
    | none => simp [place_cells, h]
    | some v =>
      obtain ⟨c, radius, rng'⟩ := v
      have := ih ⟨s.placed ++ [(c, radius)], rasterize xs ys zs s.grid c radius, rng'⟩
      simpa [place_cells, h] using this

/-- Rasterisation keeps all voxel values in `{0, 1}`: the written value is
the `uint8` OR of a `{0, 1}` value with a `{0, 1}` mask. -/
theorem rasterize_binary (xs ys zs : ℕ → ℚ) (g : VoxelGrid) (c : Vec3)
    (radius : ℚ) (h : GridBinary g) :
    GridBinary (rasterize xs ys zs g c radius) := by
  intro i j k
  have hg := h i j k
  have hm : (if sqrtLeB ((xs i - c.x) ^ 2 + (ys j - c.y) ^ 2 + (zs k - c.z) ^ 2)
      radius then (1 : ℕ) else 0) = 0 ∨
      (if sqrtLeB ((xs i - c.x) ^ 2 + (ys j - c.y) ^ 2 + (zs k - c.z) ^ 2)
      radius then (1 : ℕ) else 0) = 1 := by
    split
    · exact Or.inr rfl
    · exact Or.inl rfl
  show g.val i j k ||| _ = 0 ∨ g.val i j k ||| _ = 1
  rcases hg with hg | hg <;> rcases hm with hm | hm <;> rw [hg, hm] <;> decide

/-- The placement loop keeps all voxel values in `{0, 1}`. -/
theorem place_cells_binary (p : SynthParams) (xs ys zs : ℕ → ℚ) :
    ∀ (k : ℕ) (s : PlaceState), GridBinary s.grid →
      GridBinary (place_cells p xs ys zs k s).grid := by
  intro k
  induction k with
  | zero => intro s hs; exact hs
  | succ n ih =>
    intro s hs
    cases h : attempt_place p s.placed p.max_attempts s.rng with
    | none => simpa [place_cells, h] using hs
    | some v =>
      obtain ⟨c, radius, rng'⟩ := v
      have := ih ⟨s.placed ++ [(c, radius)], rasterize xs ys zs s.grid c radius, rng'⟩
        (rasterize_binary xs ys zs s.grid c radius hs)
      simpa [place_cells, h] using this

/-- C4: for the concrete scenario — seed `123456 + 17·31·53·1`,
`axial_resolution = 64`, `plug_aspect = 3/10`, `num_cells = 100`,
`min_radius = 1/20`, `max_radius = 3/20`, `min_separation = 1/100`,
`max_attempts = 1000` — synthesis returns (for every random stream) a grid
of shape `(38, 38, 64)` (`planar_resolution = round(2·0.30·64) = 38`)
whose values, of the single-byte unsigned occupancy type, all lie in
`{0, 1}`. -/
theorem C4_concrete_shape_and_values (streamOf : ℤ → ℕ → ℚ) (fsqrt : ℚ → ℚ) :
    ∃ g md,
      generate_voxels_from_seed streamOf fsqrt (123456 + 17 * 31 * 53 * 1)
        ⟨64, 3/10, 100, 1/20, 3/20, 1/100, 1000⟩ = Except.ok (g, md) ∧
      g.nx = 38 ∧ g.ny = 38 ∧ g.nz = 64 ∧ GridBinary g := by
  have hmr : ¬((⟨64, 3/10, 100, 1/20, 3/20, 1/100, 1000⟩ : SynthParams).maxR ≤ 0) := by
    norm_num [SynthParams.maxR]
  have hplanar : (round (2 * (3/10 : ℚ) * ((64 : ℕ) : ℚ))).toNat = 38 := by
    norm_num [round_eq]
    rfl
  have hshape := place_cells_shape
    (⟨64, 3/10, 100, 1/20, 3/20, 1/100, 1000⟩ : SynthParams)
    (initialize_meshgrid (3/10) 64).2.1 (initialize_meshgrid (3/10) 64).2.2.1
    (initialize_meshgrid (3/10) 64).2.2.2 100
    ⟨[], (initialize_meshgrid (3/10) 64).1,
      ⟨streamOf (123456 + 17 * 31 * 53 * 1), 0⟩⟩
  have hbin := place_cells_binary
    (⟨64, 3/10, 100, 1/20, 3/20, 1/100, 1000⟩ : SynthParams)
    (initialize_meshgrid (3/10) 64).2.1 (initialize_meshgrid (3/10) 64).2.2.1
    (initialize_meshgrid (3/10) 64).2.2.2 100
    ⟨[], (initialize_meshgrid (3/10) 64).1,
      ⟨streamOf (123456 + 17 * 31 * 53 * 1), 0⟩⟩
    (fun _ _ _ => Or.inl rfl)
  refine ⟨(synth_run streamOf (123456 + 17 * 31 * 53 * 1)
      ⟨64, 3/10, 100, 1/20, 3/20, 1/100, 1000⟩).grid,
    synth_metadata fsqrt (123456 + 17 * 31 * 53 * 1)
      (synth_kept streamOf (123456 + 17 * 31 * 53 * 1)
        ⟨64, 3/10, 100, 1/20, 3/20, 1/100, 1000⟩)
      (synth_run streamOf (123456 + 17 * 31 * 53 * 1)
        ⟨64, 3/10, 100, 1/20, 3/20, 1/100, 1000⟩).grid, ?_, ?_, ?_, ?_, ?_⟩
  · simp only [generate_voxels_from_seed]
    rw [if_neg hmr]
  · exact hshape.1.trans hplanar
  · exact hshape.2.1.trans hplanar
  · exact hshape.2.2
  · exact hbin

/-- C10: whenever a synthesis run keeps zero spheres (all stored radii are
zero — e.g. after an immediate placement failure — so the `radii > 0`
filter leaves nothing), `generate_voxels_from_seed` still returns normally,
and its metadata reports `num_cells_placed = 0` and the value `0` for
`min_radius`, `mean_radius`, `max_radius` and `mean_cell_volume`: the
statistics over the empty radius list are guarded by the
`if len(radii) > 0 else 0.0` conditionals, so no exception is raised. -/
theorem C10_empty_run_metadata (streamOf : ℤ → ℕ → ℚ) (fsqrt : ℚ → ℚ)
    (random_seed : ℤ) (p : SynthParams) (h1 : ¬p.maxR ≤ 0)
    (h2 : synth_kept streamOf random_seed p = []) :
    ∃ g md,
      generate_voxels_from_seed streamOf fsqrt random_seed p =
        Except.ok (g, md) ∧
      dictGet md "num_cells_placed" = some (MetaVal.int 0) ∧
      dictGet md "min_radius" = some (MetaVal.rat 0) ∧
      dictGet md "mean_radius" = some (MetaVal.rat 0) ∧
      dictGet md "max_radius" = some (MetaVal.rat 0) ∧
      dictGet md "mean_cell_volume" = some (MetaVal.rat 0) := by
  refine ⟨(synth_run streamOf random_seed p).grid,
    synth_metadata fsqrt random_seed [] (synth_run streamOf random_seed p).grid,
    ?_, ?_, ?_, ?_, ?_, ?_⟩
  · simp only [generate_voxels_from_seed]
    rw [if_neg h1, h2]
  · rfl
  · rfl
  · rfl
  · rfl
  · rfl

/-- Witness for C10 at a concrete run: `max_attempts = 0` makes the very
first placement fail, so nothing is kept and all radius statistics are 0. -/
theorem C10_empty_run_metadata_witness :
    ∃ g md,
      generate_voxels_from_seed (fun _ _ => 0) (fun q => q) 7
        ⟨2, 1, 2, 1/10, 1/10, 1/100, 0⟩ = Except.ok (g, md) ∧
      dictGet md "num_cells_placed" = some (MetaVal.int 0) ∧
      dictGet md "min_radius" = some (MetaVal.rat 0) ∧
      dictGet md "mean_radius" = some (MetaVal.rat 0) ∧
      dictGet md "max_radius" = some (MetaVal.rat 0) ∧
      dictGet md "mean_cell_volume" = some (MetaVal.rat 0) :=
  C10_empty_run_metadata (fun _ _ => 0) (fun q => q) 7
    ⟨2, 1, 2, 1/10, 1/10, 1/100, 0⟩
    (by norm_num [SynthParams.maxR]) rfl

/-- The status rule in isolation: `"success"` exactly when all three mesh
checks pass. -/
theorem tri_status_eq_success_iff (em vm wt : Bool) :
    tri_status em vm wt = "success" ↔ (em = true ∧ vm = true ∧ wt = true) := by
  cases em <;> cases vm <;> cases wt <;> simp [tri_status]

/-- C5: `triangulate_voxels` reports `status = "success"` iff the final mesh
is edge-manifold, vertex-manifold and watertight; `shrinkage_acceptable`
(true iff both the area and the volume shrinkage ratios are at most
`shrinkage_tolerance`) is reported in a separate field and has no influence
on the status: changing the tolerance changes at most
`shrinkage_acceptable`, never `status`. (Stated for runs whose marching
cubes succeeds and whose baseline area and volume are nonzero, so the
metadata is actually returned.) -/
theorem C5_status_independent_of_shrinkage (g : VoxelGrid) (em vm wt : Bool)
    (nv nf : ℕ) (pre_area pre_volume post_area post_volume tol tol' : ℚ)
    (hlevel : marching_cubes_level_ok g = true)
    (hpa : pre_area ≠ 0) (hpv : pre_volume ≠ 0) :
    ∃ md md',
      triangulate_voxels g em vm wt nv nf pre_area pre_volume post_area
        post_volume tol = Except.ok md ∧
      (dictGet md "status" = some (MetaVal.str "success") ↔
        (em = true ∧ vm = true ∧ wt = true)) ∧
      dictGet md "shrinkage_acceptable" =
        some (MetaVal.bool
          (decide (|pre_area - post_area| / pre_area ≤ tol) &&
           decide (|pre_volume - post_volume| / pre_volume ≤ tol))) ∧
      triangulate_voxels g em vm wt nv nf pre_area pre_volume post_area
        post_volume tol' = Except.ok md' ∧
      dictGet md' "status" = dictGet md "status" := by
  have e1 : pydiv |pre_area - post_area| pre_area =
      Except.ok (|pre_area - post_area| / pre_area) := by
    simp [pydiv, hpa]
  have e2 : pydiv |pre_volume - post_volume| pre_volume =
      Except.ok (|pre_volume - post_volume| / pre_volume) := by
    simp [pydiv, hpv]
  refine ⟨tri_metadata_dict nv nf pre_area post_area pre_volume post_volume
      (|pre_area - post_area| / pre_area) (|pre_volume - post_volume| / pre_volume)
      tol (tri_status em vm wt),
    tri_metadata_dict nv nf pre_area post_area pre_volume post_volume
      (|pre_area - post_area| / pre_area) (|pre_volume - post_volume| / pre_volume)
      tol' (tri_status em vm wt), ?_, ?_, ?_, ?_, rfl⟩
  · simp only [triangulate_voxels, hlevel, if_true, tri_metadata, e1, e2]
    rfl
  · have hst : dictGet (tri_metadata_dict nv nf pre_area post_area pre_volume
        post_volume (|pre_area - post_area| / pre_area)
        (|pre_volume - post_volume| / pre_volume) tol (tri_status em vm wt))
        "status" = some (MetaVal.str (tri_status em vm wt)) := rfl
    rw [hst]
    simp only [Option.some.injEq, MetaVal.str.injEq]
    exact tri_status_eq_success_iff em vm wt
  · rfl
  · simp only [triangulate_voxels, hlevel, if_true, tri_metadata, e1, e2]
    rfl

/-- Witness for C5 at a concrete grid (one occupied voxel, so the marching
cubes level is in range) and concrete measurements. -/
theorem C5_status_independent_of_shrinkage_witness :
    ∃ md md',
      triangulate_voxels ⟨2, 2, 2, fun i j k => if i + j + k = 0 then 1 else 0⟩
        true true false 5 7 2 4 1 4 1 = Except.ok md ∧
      (dictGet md "status" = some (MetaVal.str "success") ↔
        (true = true ∧ true = true ∧ false = true)) ∧
      dictGet md "shrinkage_acceptable" =
        some (MetaVal.bool
          (decide (|(2 : ℚ) - 1| / 2 ≤ 1) && decide (|(4 : ℚ) - 4| / 4 ≤ 1))) ∧
      triangulate_voxels ⟨2, 2, 2, fun i j k => if i + j + k = 0 then 1 else 0⟩
        true true false 5 7 2 4 1 4 0 = Except.ok md' ∧
      dictGet md' "status" = dictGet md "status" :=
  C5_status_independent_of_shrinkage
    ⟨2, 2, 2, fun i j k => if i + j + k = 0 then 1 else 0⟩
    true true false 5 7 2 4 1 4 1 0
    (by norm_num [marching_cubes_level_ok, gridMin, gridMax, gridVals,
      npMinN, npMaxN, List.range_succ])
    (by norm_num) (by norm_num)

/-- Folding `max` over a list of zeros leaves the accumulator unchanged. -/
theorem foldl_max_zeros : ∀ (l : List ℕ), (∀ v ∈ l, v = 0) →
    ∀ acc : ℕ, l.foldl max acc = acc := by
  intro l
  induction l with
  | nil => intro _ acc; rfl
  | cons x xs ih =>
    intro h acc
    have hx : x = 0 := h x (by simp)
    have hxs : ∀ v ∈ xs, v = 0 := fun v hv => h v (by simp [hv])
    rw [List.foldl_cons, hx, Nat.max_zero]
    exact ih hxs acc

/-- `np.max` of a list of zeros is zero. -/
theorem npMaxN_zeros (l : List ℕ) (h : ∀ v ∈ l, v = 0) : npMaxN l = 0 := by
  cases l with
  | nil => rfl
  | cons x xs =>
    have hx : x = 0 := h x (by simp)
    have hxs : ∀ v ∈ xs, v = 0 := fun v hv => h v (by simp [hv])
    show xs.foldl max x = 0
    rw [hx]
    exact foldl_max_zeros xs hxs 0

/-- In a grid whose values are all zero, every entry of `gridVals` is
zero. -/
theorem gridVals_all_zero (g : VoxelGrid) (h : ∀ i j k, g.val i j k = 0) :
    ∀ v ∈ gridVals g, v = 0 := by
  intro v hv
  unfold gridVals at hv
  rcases List.mem_flatten.mp hv with ⟨l1, hl1, hv1⟩
  rcases List.mem_map.mp hl1 with ⟨i, _, rfl⟩
  rcases List.mem_flatten.mp hv1 with ⟨l2, hl2, hv2⟩
  rcases List.mem_map.mp hl2 with ⟨j, _, rfl⟩
  rcases List.mem_map.mp hv2 with ⟨k, _, rfl⟩
  exact h i j k

/-- C9 counterexample: for a concrete all-zero voxel grid,
`triangulate_voxels` does not return metadata at all — the marching-cubes
level guard raises `ValueError` (the level `0.5` exceeds the data maximum
`0`), contradicting the claim that the call returns without raising and
reports zero vertices and faces. -/
theorem C9_allzero_grid_counterexample :
    triangulate_voxels ⟨2, 2, 2, fun _ _ _ => 0⟩ true true true 0 0 1 1 1 1 1 =
      Except.error levelErrMsg := by
  have hmax : gridMax ⟨2, 2, 2, fun _ _ _ => 0⟩ = 0 := rfl
  have : marching_cubes_level_ok ⟨2, 2, 2, fun _ _ _ => 0⟩ = false := by
    simp only [marching_cubes_level_ok, hmax]
    norm_num [gridMin]
  simp [triangulate_voxels, this]

/-- C9 as amended: for every voxel grid that is entirely zero,
`triangulate_voxels` raises (propagates the `ValueError` of
`skimage.measure.marching_cubes`, whose level `0.5` lies outside the data
range of an all-zero volume) instead of returning metadata with zero
vertices and faces. -/
theorem C9_allzero_grid_raises (g : VoxelGrid) (em vm wt : Bool) (nv nf : ℕ)
    (pre_area pre_volume post_area post_volume tol : ℚ)
    (hzero : ∀ i j k, g.val i j k = 0) :
    triangulate_voxels g em vm wt nv nf pre_area pre_volume post_area
      post_volume tol = Except.error levelErrMsg := by
  have hmax : gridMax g = 0 := npMaxN_zeros _ (gridVals_all_zero g hzero)
  have hlevel : marching_cubes_level_ok g = false := by
    simp only [marching_cubes_level_ok, hmax]
    norm_num
  simp [triangulate_voxels, hlevel]

/-- Witness for C9 as amended, at a concrete `3 × 3 × 3` all-zero grid. -/
theorem C9_allzero_grid_raises_witness :
    triangulate_voxels ⟨3, 3, 3, fun _ _ _ => 0⟩ false false false 2 3 5 6 7 8 9 =
      Except.error levelErrMsg :=
  C9_allzero_grid_raises ⟨3, 3, 3, fun _ _ _ => 0⟩ false false false 2 3 5 6 7 8 9
    (fun _ _ _ => rfl)

/-- Any candidate the attempt loop accepts passed both acceptance tests:
the overlap test against every previously placed sphere, and (earlier, with
`continue` on failure) the cylindrical-boundary test on its radial
projection. -/
theorem attempt_place_spec (p : SynthParams) (placed : List (Vec3 × ℚ)) :
    ∀ (fuel : ℕ) (rng : Rng) (c : Vec3) (radius : ℚ) (rng' : Rng),
      attempt_place p placed fuel rng = some (c, radius, rng') →
      no_overlap placed c radius p.min_separation = true ∧
      sqrtGtB (c.x ^ 2 + c.y ^ 2) p.maxR = false := by
  intro fuel
  induction fuel with
  | zero =>
    intro rng c radius rng' h
    exact absurd h (by simp [attempt_place])
  | succ n ih =>
    intro rng c radius rng' h
    simp only [attempt_place, Rng.uniform] at h
    split at h
    · exact ih _ _ _ _ h
    · rename_i hbound
      split at h
      · rename_i hov
        simp only [Option.some.injEq, Prod.mk.injEq] at h
        obtain ⟨hc, hr, _⟩ := h
        subst hc
        subst hr
        refine ⟨hov, ?_⟩
        simpa using hbound
      · exact ih _ _ _ _ h

/-- The placement loop preserves the no-overlap invariant: whenever the
attempt loop accepts a sphere, it is separated from every sphere placed
before it and its radial projection lies within the safety radius. -/
theorem place_cells_invariant (p : SynthParams) (xs ys zs : ℕ → ℚ) :
    ∀ (k : ℕ) (s : PlaceState), PlacementInvariant p s.placed →
      PlacementInvariant p (place_cells p xs ys zs k s).placed := by
  intro k
  induction k with
  | zero => intro s hs; exact hs
  | succ n ih =>
    intro s hs
    cases h : attempt_place p s.placed p.max_attempts s.rng with
    | none => simpa [place_cells, h] using hs
    | some v =>
      obtain ⟨c, radius, rng'⟩ := v
      have hspec := attempt_place_spec p s.placed p.max_attempts s.rng c radius rng' h
      have hinv' : PlacementInvariant p (s.placed ++ [(c, radius)]) := by
        constructor
        · rw [List.pairwise_append]
          refine ⟨hs.1, List.pairwise_singleton _ _, ?_⟩
          intro a ha b hb
          have hb' : b = (c, radius) := by simpa using hb
          subst hb'
          have hall := List.all_eq_true.mp hspec.1 a ha
          have hgt := (sqrtGtB_iff _ _).mp hall
          unfold pairSeparated
          push_cast at hgt ⊢
          exact hgt
        · intro a ha
          rcases List.mem_append.mp ha with ha | ha
          · exact hs.2 a ha
          · have ha' : a = (c, radius) := by simpa using ha
            subst ha'
            have hle : ¬((p.maxR : ℝ) <
                Real.sqrt ((c.x ^ 2 + c.y ^ 2 : ℚ) : ℝ)) := by
              intro hlt
              have htrue := (sqrtGtB_iff _ _).mpr hlt
              rw [hspec.2] at htrue
              exact Bool.false_ne_true htrue
            unfold inSafety
            exact not_lt.mp hle
      have hrec := ih
        ⟨s.placed ++ [(c, radius)], rasterize xs ys zs s.grid c radius, rng'⟩ hinv'
      simpa [place_cells, h] using hrec

/-- C1: in every synthesis run, after every placement step (any number `k`
of iterations of the placement loop from the initial empty state), every
pair of accepted spheres `(c1, r1), (c2, r2)` satisfies
`‖c1 − c2‖ > r1 + r2 + min_separation` and every accepted center's radial
projection lies within the safety radius
`plug_aspect − max_radius − min_separation`; in particular both properties
hold of the full run behind `generate_voxels_from_seed` and of the kept
(`radii > 0`) spheres that make up the produced voxel grid. -/
theorem C1_no_overlap_invariant (streamOf : ℤ → ℕ → ℚ) (random_seed : ℤ)
    (p : SynthParams) (k : ℕ) :
    PlacementInvariant p
      (place_cells p (initialize_meshgrid p.plug_aspect p.resolution).2.1
        (initialize_meshgrid p.plug_aspect p.resolution).2.2.1
        (initialize_meshgrid p.plug_aspect p.resolution).2.2.2 k
        ⟨[], (initialize_meshgrid p.plug_aspect p.resolution).1,
          ⟨streamOf random_seed, 0⟩⟩).placed ∧
    PlacementInvariant p ((synth_run streamOf random_seed p).placed) ∧
    List.Pairwise (pairSeparated p.min_separation)
      (synth_kept streamOf random_seed p) ∧
    ∀ a ∈ synth_kept streamOf random_seed p, inSafety p.maxR a := by
  have hinit : PlacementInvariant p
      (⟨[], (initialize_meshgrid p.plug_aspect p.resolution).1,
        ⟨streamOf random_seed, 0⟩⟩ : PlaceState).placed :=
    ⟨List.Pairwise.nil, by simp⟩
  have hrun : PlacementInvariant p ((synth_run streamOf random_seed p).placed) :=
    place_cells_invariant p _ _ _ p.num_cells _ hinit
  refine ⟨place_cells_invariant p _ _ _ k _ hinit, hrun, ?_, ?_⟩
  · exact List.Pairwise.sublist (List.filter_sublist _) hrun.1
  · intro a ha
    exact hrun.2 a (List.mem_of_mem_filter ha)

/-- `lastSome` seeded with `some x` always holds a value. -/
theorem lastSome_some_isSome : ∀ (l : List ℕ) (x : ℕ),
    (lastSome (some x) l).isSome = true := by
  intro l
  induction l with
  | nil => intro x; rfl
  | cons y ys ih => intro x; exact ih y

/-- `lastSome` seeded with `none` is `none` exactly on the empty list. -/
theorem lastSome_none_iff (l : List ℕ) : lastSome none l = none ↔ l = [] := by
  cases l with
  | nil => simp [lastSome]
  | cons x xs =>
    constructor
    · intro h
      have hs := lastSome_some_isSome xs x
      have heq : lastSome none (x :: xs) = lastSome (some x) xs := rfl
      rw [← heq, h] at hs
      cases hs
    · intro h
      cases h

/-- The classification loop of `assign_physical_groups`, characterised as
one pass: the curved areas collected are those of the non-cap surfaces that
meet the curved-area criterion; each tag variable holds the last matching
surface's tag; the mesophyll list collects the surfaces matching no
branch. -/
theorem classify_foldl (target tolerance : ℚ) :
    ∀ (l : List KSurface) (st : ClassifyState),
      l.foldl (classify_step target tolerance) st =
        ⟨st.curved_found ++
          (l.filter (isCurvedSurfB target tolerance)).map KSurface.area,
         lastSome st.curved_area_tag
           ((l.filter (isCurvedSurfB target tolerance)).map KSurface.tag),
         lastSome st.top_area_tag ((l.filter isTopB).map KSurface.tag),
         lastSome st.bottom_area_tag ((l.filter isBottomB).map KSurface.tag),
         st.mesophyll_surface_tags ++
          (l.filter (isMesoB target tolerance)).map KSurface.tag⟩ := by
  intro l
  induction l with
  | nil => intro st; simp [lastSome]
  | cons s l ih =>
    intro st
    rw [List.foldl_cons, ih]
    by_cases h1 : np_isclose s.comZ 1 = true
    · simp [classify_step, h1, isTopB, isBottomB, isCurvedSurfB, isMesoB,
        List.filter_cons, lastSome]
    · by_cases h0 : np_isclose s.comZ 0 = true
      · simp [classify_step, h1, h0, isTopB, isBottomB, isCurvedSurfB, isMesoB,
          List.filter_cons, lastSome]
      · by_cases hc : iscurvedB target tolerance s.area = true
        · simp [classify_step, h1, h0, hc, isTopB, isBottomB, isCurvedSurfB,
            isMesoB, List.filter_cons, lastSome]
        · simp [classify_step, h1, h0, hc, isTopB, isBottomB, isCurvedSurfB,
            isMesoB, List.filter_cons, lastSome]

/-- `lastSome` seeded with `none` on a nonempty list holds a value. -/
theorem lastSome_isSome_of_ne_nil (l : List ℕ) (h : l ≠ []) :
    (lastSome none l).isSome = true := by
  cases l with
  | nil => exact absurd rfl h
  | cons x xs => exact lastSome_some_isSome xs x

/-- C7 as amended: `assign_physical_groups` aborts (assertion error) iff the
number of *non-cap* surfaces satisfying the curved-area criterion — cap
surfaces, caught earlier by the center-of-mass checks, are never tested —
differs from one, or no surface was recognised as top cap, or none as
bottom cap; when it succeeds, the returned classification holds exactly one
top, one bottom and one curved surface tag (the last matching surface
each), and exactly the surfaces matching no branch are classified as
mesophyll. -/
theorem C7_classification_characterised (fsqrt : ℚ → ℚ)
    (bbox_size : ℚ × ℚ × ℚ) (tolerance : ℚ) (surfaces : List KSurface) :
    (assign_physical_groups fsqrt bbox_size tolerance surfaces =
      if surfaces.countP
          (isCurvedSurfB (curved_area_target fsqrt bbox_size) tolerance) ≠ 1 then
        Except.error curvedAssertMsg
      else if surfaces.countP isTopB = 0 ∨ surfaces.countP isBottomB = 0 then
        Except.error capAssertMsg
      else
        Except.ok
          ⟨(surfaces.filter
              (isMesoB (curved_area_target fsqrt bbox_size) tolerance)).map
                KSurface.tag,
           lastSome none
             ((surfaces.filter
               (isCurvedSurfB (curved_area_target fsqrt bbox_size)
                 tolerance)).map KSurface.tag),
           lastSome none ((surfaces.filter isTopB).map KSurface.tag),
           lastSome none ((surfaces.filter isBottomB).map KSurface.tag)⟩) ∧
    (∀ t, assign_physical_groups fsqrt bbox_size tolerance surfaces =
        Except.ok t →
      t.curved_area_tag.isSome = true ∧ t.top_area_tag.isSome = true ∧
      t.bottom_area_tag.isSome = true ∧
      t.mesophyll_surface_tags =
        (surfaces.filter
          (isMesoB (curved_area_target fsqrt bbox_size) tolerance)).map
            KSurface.tag) := by
  have hfold := classify_foldl (curved_area_target fsqrt bbox_size) tolerance
    surfaces ⟨[], none, none, none, []⟩
  have hlen : ((surfaces.filter
      (isCurvedSurfB (curved_area_target fsqrt bbox_size) tolerance)).map
        KSurface.area).length =
      surfaces.countP
        (isCurvedSurfB (curved_area_target fsqrt bbox_size) tolerance) := by
    rw [List.length_map, List.countP_eq_length_filter]
  have htop : (lastSome none ((surfaces.filter isTopB).map KSurface.tag) =
      none) ↔ surfaces.countP isTopB = 0 := by
    rw [lastSome_none_iff, List.map_eq_nil_iff, List.countP_eq_length_filter,
      List.length_eq_zero]
  have hbot : (lastSome none ((surfaces.filter isBottomB).map KSurface.tag) =
      none) ↔ surfaces.countP isBottomB = 0 := by
    rw [lastSome_none_iff, List.map_eq_nil_iff, List.countP_eq_length_filter,
      List.length_eq_zero]
  have hmain : assign_physical_groups fsqrt bbox_size tolerance surfaces =
      if surfaces.countP
          (isCurvedSurfB (curved_area_target fsqrt bbox_size) tolerance) ≠ 1 then
        Except.error curvedAssertMsg
      else if surfaces.countP isTopB = 0 ∨ surfaces.countP isBottomB = 0 then
        Except.error capAssertMsg
      else
        Except.ok
          ⟨(surfaces.filter
              (isMesoB (curved_area_target fsqrt bbox_size) tolerance)).map
                KSurface.tag,
           lastSome none
             ((surfaces.filter
               (isCurvedSurfB (curved_area_target fsqrt bbox_size)
                 tolerance)).map KSurface.tag),
           lastSome none ((surfaces.filter isTopB).map KSurface.tag),
           lastSome none ((surfaces.filter isBottomB).map KSurface.tag)⟩ := by
    simp only [assign_physical_groups, hfold, List.nil_append]
    rw [hlen]
    simp only [htop, hbot]
  refine ⟨hmain, ?_⟩
  intro t ht
  rw [hmain] at ht
  by_cases h1 : surfaces.countP
      (isCurvedSurfB (curved_area_target fsqrt bbox_size) tolerance) ≠ 1
  · rw [if_pos h1] at ht
    cases ht
  · rw [if_neg h1] at ht
    by_cases h2 : surfaces.countP isTopB = 0 ∨ surfaces.countP isBottomB = 0
    · rw [if_pos h2] at ht
      cases ht
    · rw [if_neg h2] at ht
      injection ht with ht'
      subst ht'
      push_neg at h1 h2
      refine ⟨?_, ?_, ?_, rfl⟩
      · apply lastSome_isSome_of_ne_nil
        intro hnil
        have hfil : surfaces.filter
            (isCurvedSurfB (curved_area_target fsqrt bbox_size) tolerance) = [] :=
          List.map_eq_nil_iff.mp hnil
        have : surfaces.countP
            (isCurvedSurfB (curved_area_target fsqrt bbox_size) tolerance) = 0 := by
          rw [List.countP_eq_length_filter, hfil]
          rfl
        omega
      · apply lastSome_isSome_of_ne_nil
        intro hnil
        exact h2.1 (htop.mp ((lastSome_none_iff _).mpr hnil))
      · apply lastSome_isSome_of_ne_nil
        intro hnil
        exact h2.2 (hbot.mp ((lastSome_none_iff _).mpr hnil))

/-- C7 counterexample: a scene in which *two* surfaces satisfy the
curved-area criterion — but one of them is the top cap, which the loop
classifies by its center of mass before ever testing its area — and
`assign_physical_groups` succeeds instead of aborting. Bounding box
`(2, 2, 1)` gives half-axes `a = b = 1`, so the Ramanujan target is
`2π` (`(3a+b)(a+3b) = 16`, whose floating-point square root is exactly
`4`, the value the `fsqrt` parameter takes here); the top cap (`comZ = 1`)
and the lateral surface (`comZ = 1/2`) both have area `2π`. -/
theorem C7_cap_exempt_counterexample :
    (∃ t, assign_physical_groups (fun _ => 4) (2, 2, 1) (1/100)
        [⟨1, 1, 2 * npPi⟩, ⟨2, 0, npPi⟩, ⟨3, 1/2, 2 * npPi⟩] = Except.ok t) ∧
    ([(⟨1, 1, 2 * npPi⟩ : KSurface), ⟨2, 0, npPi⟩, ⟨3, 1/2, 2 * npPi⟩]).countP
      (fun s => iscurvedB (curved_area_target (fun _ => 4) (2, 2, 1)) (1/100)
        s.area) = 2 := by
  have htarget : curved_area_target (fun _ => 4) (2, 2, 1) = 2 * npPi := by
    simp [curved_area_target]
    ring
  have hTop1 : isTopB ⟨1, 1, 2 * npPi⟩ = true := by
    norm_num [isTopB, np_isclose]
  have hTop2 : isTopB ⟨2, 0, npPi⟩ = false := by
    norm_num [isTopB, np_isclose]
  have hTop3 : isTopB ⟨3, 1/2, 2 * npPi⟩ = false := by
    norm_num [isTopB, np_isclose, abs_of_pos]
  have hB2 : np_isclose (0 : ℚ) 0 = true := by
    norm_num [np_isclose]
  have hB3 : np_isclose (1/2 : ℚ) 0 = false := by
    norm_num [np_isclose, abs_of_pos]
  have hCa : iscurvedB (2 * npPi) (1/100) (2 * npPi) = true := by
    norm_num [iscurvedB, npPi]
  have hCb : iscurvedB (2 * npPi) (1/100) npPi = false := by
    norm_num [iscurvedB, npPi, abs_of_pos]
  constructor
  · refine ⟨⟨[], some 3, some 1, some 2⟩, ?_⟩
    simp only [assign_physical_groups, htarget, classify_foldl,
      List.filter_cons, List.filter_nil, isCurvedSurfB, isMesoB, isBottomB,
      hTop1, hTop2, hTop3, hB2, hB3, hCa, hCb]
    simp [lastSome]
  · simp only [htarget, List.countP_cons, List.countP_nil, hCa, hCb]
    norm_num
